import Mathlib

/-!
Verification of the hq-go-errors structured-error library against its
natural-language specification.

The Go source is shallowly embedded: program counters are `Nat`, the
mutable shared stack owned by a root error is a cell in an explicit heap
(`Heap`, a list of PC lists, addressed by index), and the Go `error`
interface value is `Option GoErr` (`none` models the nil interface).
Runtime stack capture (`callers`, `caller`) and frame resolution cannot be
embedded; the captured trace and wrap-site frame therefore appear as
explicit parameters of the operations that capture them, and resolved
stacks are represented by their raw PC sequences (resolution is read-only
and order-preserving, so order and duplication facts transfer).
-/

namespace HqGoErrors

/-- Embedding of `stack.insertPC` (src/stack.go) restricted to the two-PC
scan: walk the existing stack; on meeting `wrapPCs[0]` stop unchanged, on
meeting `wrapPCs[1]` splice `wrapPCs[0]` in front of it. -/
def insertPCTwo (a b : Nat) : List Nat → List Nat
  | [] => []
  | pc :: rest =>
    if pc = a then pc :: rest
    else if pc = b then a :: pc :: rest
    else pc :: insertPCTwo a b rest

/-- Embedding of `stack.insertPC` (src/stack.go lines 70-92): no PCs is a
no-op, a single PC is appended unconditionally, two or more PCs run the
scan-and-splice loop on the first two PCs. -/
def insertPC (s : List Nat) (wrapPCs : List Nat) : List Nat :=
  match wrapPCs with
  | [] => s
  | [pc] => s ++ [pc]
  | a :: b :: _ => insertPCTwo a b s

/-- Heap of trace cells: a root or joined error holds an index into this
list, modelling the Go `*stack` pointer that wrapping mutates in place. -/
abbrev Heap := List (List Nat)

/-- Dereference a trace cell (missing cells read as the empty trace). -/
def Heap.get (h : Heap) (r : Nat) : List Nat := h.getD r []

/-- Overwrite a trace cell in place, modelling `*s = ...` through a
`*stack` pointer. -/
def Heap.write (h : Heap) (r : Nat) (t : List Nat) : Heap := h.set r t

/-- Allocate a fresh trace cell, modelling `&stack` of a newly captured
trace; returns the new heap and the fresh reference. -/
def Heap.alloc (h : Heap) (t : List Nat) : Heap × Nat := (h ++ [t], h.length)

/-- Embedding of the package's error values (src/unnamed/part_005,
lines 657-1639): `root`, `wrapped` and `joined` are the library's three
node kinds, `external` stands for any foreign error value (no custom
`Is`/`As`/`Unwrap` methods, a comparable dynamic type). The `id` field
models the allocation identity of the Go pointer; `fields` models the
`map[string]any` context as an association list with opaque payloads. -/
inductive GoErr : Type where
  | root (id : Nat) (isGlobal : Bool) (errType message : String)
      (fields : List (String × String)) (cause : Option GoErr) (traceRef : Nat)
  | wrapped (id : Nat) (errType message : String)
      (fields : List (String × String)) (cause : Option GoErr) (framePC : Nat)
  | joined (id : Nat) (isGlobal : Bool) (errs : List GoErr) (traceRef : Nat)
  | external (id : Nat) (message : String)

/-- Allocation identity of a node (the Go pointer value). -/
def goId : GoErr → Nat
  | .root i _ _ _ _ _ _ => i
  | .wrapped i _ _ _ _ _ => i
  | .joined i _ _ _ => i
  | .external i _ => i

/-- Dynamic-type discriminator of a node. -/
def goKind : GoErr → Nat
  | .root _ _ _ _ _ _ _ => 0
  | .wrapped _ _ _ _ _ _ => 1
  | .joined _ _ _ _ => 2
  | .external _ _ => 3

/-- Go interface equality `err == target` on non-nil values: the dynamic
types agree and the pointers agree. -/
def goEq (a b : GoErr) : Bool := goKind a == goKind b && goId a == goId b

/-- Embedding of the package-level `Unwrap` (src/unnamed/part_005 lines
1404-1421): yields the single cause of a `root` or `wrapped` node; a
`joined` node only has `Unwrap() []error`, which does not satisfy the
`interface .. Unwrap() error ..` assertion, and a foreign error exposes
nothing, so both give `nil`. -/
def Unwrap : Option GoErr → Option GoErr
  | some (.root _ _ _ _ _ c _) => c
  | some (.wrapped _ _ _ _ c _) => c
  | _ => none

/-- Multi-cause accessor `joined.Unwrap() []error` (src/unnamed/part_005
lines 1214-1222); `none` on the kinds that do not implement it. -/
def UnwrapMulti : GoErr → Option (List GoErr)
  | .joined _ _ errs _ => some errs
  | _ => none

/-- Loop body of `Cause` (src/unnamed/part_005 lines 1587-1598) on a
non-nil start: repeatedly follow the single-cause unwrap until it yields
nil. -/
def causeLoop : GoErr → GoErr
  | .root _ _ _ _ _ (some c) _ => causeLoop c
  | .wrapped _ _ _ _ (some c) _ => causeLoop c
  | e => e

/-- Embedding of the package-level `Cause`: `Unwrap` of nil is nil, so
`Cause nil = nil`; otherwise run the unwrap loop. -/
def Cause : Option GoErr → Option GoErr
  | none => none
  | some e => some (causeLoop e)

/-- Embedding of the internal `wrap` (src/unnamed/part_005 lines
1332-1375). The captured multi-frame trace (`callers(4)`) and single
wrap-site frame (`caller(3)`) are parameters `trace` and `framePC`; `wId`
and `rId` are the allocation identities of the nodes `wrap` may create.
Case analysis on the cause's dynamic type follows the Go type switch:
non-global root mutates the shared trace cell in place; global root is
copied into a fresh root owning a fresh trace cell; wrapped resolves its
root through `Cause` and mutates that root's cell; anything else (the
default branch: foreign errors, and also joined values) becomes the cause
of a brand-new root carrying the fresh trace and the wrap message. -/
def wrap (h : Heap) (cause : Option GoErr) (msg : String)
    (trace : List Nat) (framePC : Nat) (wId rId : Nat) : Heap × Option GoErr :=
  match cause with
  | none => (h, none)
  | some c =>
    match c with
    | .root _ isG ty m fs cz ref =>
      if isG then
        let alloc := Heap.alloc h trace
        let newRoot : GoErr := .root rId isG ty m fs cz alloc.2
        (alloc.1, some (.wrapped wId "" msg [] (some newRoot) framePC))
      else
        (Heap.write h ref (insertPC (Heap.get h ref) trace),
         some (.wrapped wId "" msg [] (some c) framePC))
    | .wrapped _ _ _ _ _ _ =>
      match causeLoop c with
      | .root _ _ _ _ _ _ ref =>
        (Heap.write h ref (insertPC (Heap.get h ref) trace),
         some (.wrapped wId "" msg [] (some c) framePC))
      | _ => (h, some (.wrapped wId "" msg [] (some c) framePC))
    | _ =>
      let alloc := Heap.alloc h trace
      (alloc.1, some (.root rId false "" msg [] (some c) alloc.2))

/-- Option closures produced by `WithType` and `WithField`
(src/unnamed/part_005 lines 1377-1402), as data. -/
inductive GoOption : Type where
  | withType (t : String)
  | withField (k v : String)

/-- Map update `e.fields[key] = value` on the association-list model. -/
def setFieldList (fs : List (String × String)) (k v : String) :
    List (String × String) :=
  match fs with
  | [] => [(k, v)]
  | kv :: rest => if kv.1 = k then (k, v) :: rest else kv :: setFieldList rest k v

/-- Effect of running one option closure on a non-nil error value:
`SetType` replaces the classification, `SetField` updates the field map.
The mutators of `joined`/foreign values are never reached through the
public constructors, so those cases are identities. -/
def applyOption (e : GoErr) (o : GoOption) : GoErr :=
  match o with
  | .withType t =>
    match e with
    | .root i g _ m f c r => .root i g t m f c r
    | .wrapped i _ m f c fr => .wrapped i t m f c fr
    | e => e
  | .withField k v =>
    match e with
    | .root i g ty m f c r => .root i g ty m (setFieldList f k v) c r
    | .wrapped i ty m f c fr => .wrapped i ty m (setFieldList f k v) c fr
    | e => e

/-- Embedding of the public `Wrap` (src/unnamed/part_005 lines 1299-1309):
run the internal `wrap`, then run every option closure on the result.
When `wrap` returned the nil interface, invoking an option closure calls a
method on a nil interface value and the Go runtime panics; the outer
`Option` models that panic as `none`. -/
def Wrap (h : Heap) (cause : Option GoErr) (msg : String) (ofs : List GoOption)
    (trace : List Nat) (framePC : Nat) (wId rId : Nat) :
    Option (Heap × Option GoErr) :=
  let res := wrap h cause msg trace framePC wId rId
  match res.2 with
  | none => if ofs.isEmpty then some (res.1, none) else none
  | some e => some (res.1, some (ofs.foldl applyOption e))

/-- Embedding of `Join` (src/unnamed/part_005 lines 1611-1639): drop nil
arguments; none left gives nil, one left is returned as-is, two or more
build a `joined` node over a trace cell freshly captured at the join call
site (the captured PCs and their global-init flag are the parameters
`trace` and `traceIsGlobal`; `jId` is the new node's identity). -/
def Join (h : Heap) (errs : List (Option GoErr)) (trace : List Nat)
    (traceIsGlobal : Bool) (jId : Nat) : Heap × Option GoErr :=
  match errs.filterMap id with
  | [] => (h, none)
  | [e] => (h, some e)
  | es =>
    let alloc := Heap.alloc h trace
    (alloc.1, some (.joined jId traceIsGlobal es alloc.2))

/-- Custom equality methods `root.Is` and `wrapped.Is`
(src/unnamed/part_005 lines 765-779 and 990-1004) on non-nil receiver and
target: same dynamic type, matching classification (or untyped target)
and identical message. Foreign errors carry no such method. -/
def msgIs (e target : GoErr) : Bool :=
  match e, target with
  | .root _ _ ty m _ _ _, .root _ _ tty tm _ _ _ =>
      (tty == "" || ty == tty) && m == tm
  | .wrapped _ ty m _ _ _, .wrapped _ tty tm _ _ _ =>
      (tty == "" || ty == tty) && m == tm
  | _, _ => false

mutual

/-- Embedding of the internal `is` loop (src/unnamed/part_005 lines
1458-1491) on non-nil arguments (the target's dynamic type is comparable
for every modelled kind, so the `isComparable` flag is `true`): identity
check, then the node's custom `Is` method (for `joined` this is the
fan-out of src/unnamed/part_005 lines 1173-1189), then descend through
`Unwrap() error` or fan out through `Unwrap() []error`. -/
def is (e target : GoErr) : Bool :=
  match e with
  | .root i g ty m f cz r =>
      goEq (.root i g ty m f cz r) target || msgIs (.root i g ty m f cz r) target ||
        (match cz with
         | some c => is c target
         | none => false)
  | .wrapped i ty m f cz fr =>
      goEq (.wrapped i ty m f cz fr) target || msgIs (.wrapped i ty m f cz fr) target ||
        (match cz with
         | some c => is c target
         | none => false)
  | .joined i g errs r =>
      goEq (.joined i g errs r) target || isList errs target || isList errs target
  | .external i m => goEq (.external i m) target

/-- Fan-out over a sub-error list, shared by `joined.Is` and the
`Unwrap() []error` branch of `is`. -/
def isList (l : List GoErr) (target : GoErr) : Bool :=
  match l with
  | [] => false
  | c :: rest => is c target || isList rest target

end

/-- Embedding of the public `Is` (src/unnamed/part_005 lines 1434-1446):
two nils match, a single nil does not, otherwise run the internal loop. -/
def Is : Option GoErr → Option GoErr → Bool
  | none, none => true
  | none, some _ => false
  | some _, none => false
  | some e, some t => is e t

mutual

/-- Nodes reachable from an error by the walk the specification
describes: the node itself, then through the single-cause link, and at a
`joined` node through every sub-error. This definition follows the
spec's words and is compared with the source-derived `is`. -/
def reach : GoErr → List GoErr
  | .root i g ty m f cz r =>
      .root i g ty m f cz r ::
        (match cz with
         | some c => reach c
         | none => [])
  | .wrapped i ty m f cz fr =>
      .wrapped i ty m f cz fr ::
        (match cz with
         | some c => reach c
         | none => [])
  | .joined i g errs r => .joined i g errs r :: reachList errs
  | .external i m => [.external i m]

/-- Reachable nodes of every error in a list, in order. -/
def reachList : List GoErr → List GoErr
  | [] => []
  | c :: rest => reach c ++ reachList rest

end

mutual

/-- Embedding of the `Error()` methods on non-nil receivers
(src/unnamed/part_005 lines 706-720, 930-944, 1134-1150): message, and
when a cause is present the message followed by the cause's own text;
`joined` newline-joins its children; a foreign error yields its own
message. -/
def errorMessage : GoErr → String
  | .root _ _ _ m _ cz _ =>
      m ++ (match cz with
            | some c => ": " ++ errorMessage c
            | none => "")
  | .wrapped _ _ m _ cz _ =>
      m ++ (match cz with
            | some c => ": " ++ errorMessage c
            | none => "")
  | .joined _ _ errs _ => String.intercalate "\n" (errorMessageList errs)
  | .external _ m => m

/-- Texts of the children of a joined node, in order. -/
def errorMessageList : List GoErr → List String
  | [] => []
  | c :: rest => errorMessage c :: errorMessageList rest

end

/-- Nil-receiver convention of `root.Error` and `wrapped.Error`: a nil
typed pointer receiver short-circuits to the string <nil> before any
field is touched. -/
def errorMethod : Option GoErr → String
  | none => "<nil>"
  | some e => errorMessage e

/-- One decomposed part of a chain (`ErrPart` in src/format.go lines
33-38); the resolved stack is represented by its raw PC sequence, a
wrapped part carrying exactly its single wrap-site frame. -/
structure ErrPart : Type where
  message : String
  errType : String
  fields : List (String × String)
  stack : List Nat
deriving DecidableEq

/-- Decomposition record (`UnpackedError` in src/format.go lines 18-23). -/
structure UnpackedError : Type where
  errExternal : Option GoErr
  errRoot : ErrPart
  errChain : List ErrPart
  errJoined : List GoErr

/-- Zero value of `UnpackedError`. -/
def emptyUnpacked : UnpackedError :=
  { errExternal := none
  , errRoot := { message := "", errType := "", fields := [], stack := [] }
  , errChain := []
  , errJoined := [] }

/-- Traversal loop of `Unpack` (src/format.go lines 481-512): a root fills
the root part (resolving its shared trace cell) and continues into its
cause, a wrapped node appends its part to the chain and continues, and
any other non-nil value is recorded as the external tail, stopping
the walk. -/
def unpackLoop (h : Heap) : Option GoErr → UnpackedError → UnpackedError
  | none, acc => acc
  | some e, acc =>
    match e with
    | .root _ _ ty m f cz ref =>
        unpackLoop h cz
          { acc with errRoot := { message := m, errType := ty, fields := f
                                , stack := Heap.get h ref } }
    | .wrapped _ ty m f cz fr =>
        unpackLoop h cz
          { acc with errChain := acc.errChain ++
              [{ message := m, errType := ty, fields := f, stack := [fr] }] }
    | e => { acc with errExternal := some e }

/-- Embedding of `Unpack` (src/format.go lines 474-515): a joined error
short-circuits, exposing its child list directly; everything else runs
the single-cause traversal loop from the zero record. -/
def Unpack (h : Heap) (err : Option GoErr) : UnpackedError :=
  match err with
  | some (.joined _ _ errs _) => { emptyUnpacked with errJoined := errs }
  | e => unpackLoop h e emptyUnpacked

/-- Formatter configuration (`FormatterOptions`, src/format.go lines
411-418). -/
structure FormatterOptions : Type where
  isInnerFirst : Bool
  withTrace : Bool
  invertTrace : Bool
  withExternal : Bool
  spacing : String
  indentation : String

/-- Shape of one chain entry of the JSON rendering (`formatPartJSON`,
src/format.go lines 290-330): the `message` key is always present, the
`type`, `fields` and `stack` keys only under the source's conditions,
modelled as `Option`-valued record fields; `InvertTrace` reverses the
frame list. -/
structure PartJSON : Type where
  message : String
  errType : Option String
  fields : Option (List (String × String))
  stack : Option (List Nat)

/-- Embedding of `formatPartJSON` over the PC-sequence stack model. -/
def formatPartJSON (o : FormatterOptions) (p : ErrPart) : PartJSON :=
  { message := p.message
  , errType := if p.errType == "" then none else some p.errType
  , fields := if p.fields.length > 0 then some p.fields else none
  , stack :=
      if o.withTrace && p.stack.length > 0 then
        some (if o.invertTrace then p.stack.reverse else p.stack)
      else none }

/-- Chain component of `formatChainJSON` (src/format.go lines 261-277):
the unpacked chain parts are rendered in their stored order and the
resulting presentation list is reversed exactly when `IsInnerFirst` is
set; the stored record is not modified. -/
def formatChainJSONChain (o : FormatterOptions) (u : UnpackedError) :
    List PartJSON :=
  let chain := u.errChain.map (formatPartJSON o)
  if o.isInnerFirst then chain.reverse else chain

/-- Discriminator for the copy-on-wrap dispatch: a root flagged as
created during global initialization. -/
def isGlobalRoot : GoErr → Bool
  | .root _ true _ _ _ _ _ => true
  | _ => false

/-- Data of one wrap layer, used to describe a library-shaped chain:
a `wrapped` node's identity, classification, message, fields and
wrap-site frame. -/
structure WrapSpec : Type where
  id : Nat
  errType : String
  message : String
  fields : List (String × String)
  framePC : Nat

/-- A library-shaped chain: wrap layers nested over a base error, the
head of the list being the outermost wrap. -/
def buildChain (base : GoErr) : List WrapSpec → GoErr
  | [] => base
  | w :: rest =>
      .wrapped w.id w.errType w.message w.fields (some (buildChain base rest))
        w.framePC

/-- Chain part that `Unpack` derives from one wrap layer. -/
def wrapPart (w : WrapSpec) : ErrPart :=
  { message := w.message, errType := w.errType, fields := w.fields
  , stack := [w.framePC] }

section InsertPCLemmas

theorem insertPCTwo_of_second_not_mem (a b : Nat) (s : List Nat) (hb : b ∉ s) :
    insertPCTwo a b s = s := by
  induction s with
  | nil => rfl
  | cons pc rest ih =>
    simp only [List.mem_cons, not_or] at hb
    by_cases hpa : pc = a
    · simp [insertPCTwo, hpa]
    · simp [insertPCTwo, hpa, Ne.symm hb.1, ih hb.2]

theorem insertPCTwo_first_found (a b : Nat) (pre rest : List Nat)
    (ha : a ∉ pre) (hb : b ∉ pre) :
    insertPCTwo a b (pre ++ a :: rest) = pre ++ a :: rest := by
  induction pre with
  | nil => simp [insertPCTwo]
  | cons p pre ih =>
    simp only [List.mem_cons, not_or] at ha hb
    simp [insertPCTwo, Ne.symm ha.1, Ne.symm hb.1, ih ha.2 hb.2]

theorem insertPCTwo_second_found (a b : Nat) (pre rest : List Nat)
    (hab : a ≠ b) (ha : a ∉ pre) (hb : b ∉ pre) :
    insertPCTwo a b (pre ++ b :: rest) = pre ++ a :: b :: rest := by
  induction pre with
  | nil => simp [insertPCTwo, Ne.symm hab]
  | cons p pre ih =>
    simp only [List.mem_cons, not_or] at ha hb
    simp [insertPCTwo, Ne.symm ha.1, Ne.symm hb.1, ih ha.2 hb.2]

end InsertPCLemmas

/-- C1 counterexample: the idempotence guard does not cover a first
address that occurs only after the first occurrence of the second
address. On trace `[2, 1]` and new frames `[1, 2]`, the first address `1`
is present in the trace, yet the merge splices rather than doing nothing,
so the claim as stated is false. -/
theorem insertPC_anywhere_guard_fails :
    (1 : Nat) ∈ [2, 1] ∧ insertPC [2, 1] [1, 2] = [1, 2, 1]
      ∧ insertPC [2, 1] [1, 2] ≠ [2, 1] := by
  refine ⟨by decide, by decide, by decide⟩

/-- C1 (amended): `insertPC` appends a single address unconditionally;
with two addresses it scans left to right, stopping unchanged on meeting
the first address and splicing the first address immediately before the
first occurrence of the second address; when the second address is
absent the trace is unchanged. The already-present guard therefore
applies only to occurrences of the first address seen strictly before
the second address is found, not anywhere in the trace. -/
theorem insertPC_merge_spec :
    (∀ s : List Nat, insertPC s [] = s)
    ∧ (∀ (s : List Nat) (pc : Nat), insertPC s [pc] = s ++ [pc])
    ∧ (∀ (pre rest tail : List Nat) (a b : Nat), a ≠ b → a ∉ pre → b ∉ pre →
        insertPC (pre ++ b :: rest) (a :: b :: tail) = pre ++ a :: b :: rest)
    ∧ (∀ (pre rest tail : List Nat) (a b : Nat), a ∉ pre → b ∉ pre →
        insertPC (pre ++ a :: rest) (a :: b :: tail) = pre ++ a :: rest)
    ∧ (∀ (s tail : List Nat) (a b : Nat), b ∉ s →
        insertPC s (a :: b :: tail) = s) := by
  refine ⟨fun s => rfl, fun s pc => rfl, ?_, ?_, ?_⟩
  · intro pre rest tail a b hab ha hb
    exact insertPCTwo_second_found a b pre rest hab ha hb
  · intro pre rest tail a b ha hb
    exact insertPCTwo_first_found a b pre rest ha hb
  · intro s tail a b hb
    exact insertPCTwo_of_second_not_mem a b s hb

/-- Witness for the amended C1 theorem at concrete traces. -/
theorem insertPC_merge_spec_witness :
    insertPC [5, 7] [9] = [5, 7, 9]
    ∧ ((3 : Nat) ≠ 7 ∧ (3 : Nat) ∉ [5] ∧ (7 : Nat) ∉ [5]
        ∧ insertPC [5, 7, 11] [3, 7] = [5, 3, 7, 11])
    ∧ ((3 : Nat) ∉ [5] ∧ (7 : Nat) ∉ [5]
        ∧ insertPC [5, 3, 11] [3, 7] = [5, 3, 11])
    ∧ ((7 : Nat) ∉ [5, 6] ∧ insertPC [5, 6] [3, 7] = [5, 6]) :=
  ⟨insertPC_merge_spec.2.1 [5, 7] 9,
   ⟨by decide, by decide, by decide,
    insertPC_merge_spec.2.2.1 [5] [11] [] 3 7 (by decide) (by decide) (by decide)⟩,
   ⟨by decide, by decide,
    insertPC_merge_spec.2.2.2.1 [5] [11] [] 3 7 (by decide) (by decide)⟩,
   ⟨by decide,
    insertPC_merge_spec.2.2.2.2 [5, 6] [] 3 7 (by decide)⟩⟩

/-- C2: `Join` filters out nil arguments; when none remain it returns
nil, when exactly one remains it returns that error itself with no
`joined` wrapper and no fresh trace cell, and when two or more remain it
returns a `joined` node over exactly those non-nil errors in their
original order whose trace cell holds the trace captured at the join
call site. -/
theorem Join_spec :
    ∀ (h : Heap) (errs : List (Option GoErr)) (trace : List Nat)
      (g : Bool) (jId : Nat),
    (errs.filterMap id = [] → Join h errs trace g jId = (h, none))
    ∧ (∀ e, errs.filterMap id = [e] → Join h errs trace g jId = (h, some e))
    ∧ (∀ e1 e2 rest, errs.filterMap id = e1 :: e2 :: rest →
        Join h errs trace g jId =
          (h ++ [trace], some (.joined jId g (e1 :: e2 :: rest) h.length))
        ∧ Heap.get (h ++ [trace]) h.length = trace) := by
  intro h errs trace g jId
  refine ⟨?_, ?_, ?_⟩
  · intro he
    simp [Join, he]
  · intro e he
    simp [Join, he]
  · intro e1 e2 rest he
    refine ⟨by simp [Join, he, Heap.alloc], ?_⟩
    simp [Heap.get, List.getD_append_right h [trace] [] h.length (Nat.le_refl h.length)]

/-- Witness for C2 at concrete argument lists covering all three arms. -/
theorem Join_spec_witness :
    (List.filterMap id [(none : Option GoErr)] = [] ∧
      Join [] [none] [9] false 7 = ([], none))
    ∧ (List.filterMap id [none, some (GoErr.external 1 "a")]
          = [GoErr.external 1 "a"] ∧
       Join [] [none, some (.external 1 "a")] [9] false 7
          = ([], some (.external 1 "a")))
    ∧ (List.filterMap id
          [some (GoErr.external 1 "a"), none, some (GoErr.external 2 "b")]
          = [GoErr.external 1 "a", GoErr.external 2 "b"] ∧
       Join [[3]] [some (.external 1 "a"), none, some (.external 2 "b")] [9] false 7
          = ([[3], [9]], some (.joined 7 false [.external 1 "a", .external 2 "b"] 1))
       ∧ Heap.get [[3], [9]] 1 = [9]) :=
  ⟨⟨rfl, (Join_spec [] [none] [9] false 7).1 rfl⟩,
   ⟨rfl, (Join_spec [] [none, some (.external 1 "a")] [9] false 7).2.1
      (GoErr.external 1 "a") rfl⟩,
   ⟨rfl, (Join_spec [[3]] [some (.external 1 "a"), none, some (.external 2 "b")]
      [9] false 7).2.2 (GoErr.external 1 "a") (GoErr.external 2 "b") [] rfl⟩⟩

theorem unwrap_causeLoop : ∀ e : GoErr, Unwrap (some (causeLoop e)) = none
  | .root _ _ _ _ _ (some c) _ => by
      simpa [causeLoop] using unwrap_causeLoop c
  | .root _ _ _ _ _ none _ => by simp [causeLoop, Unwrap]
  | .wrapped _ _ _ _ (some c) _ => by
      simpa [causeLoop] using unwrap_causeLoop c
  | .wrapped _ _ _ _ none _ => by simp [causeLoop, Unwrap]
  | .joined _ _ _ _ => by simp [causeLoop, Unwrap]
  | .external _ _ => by simp [causeLoop, Unwrap]

/-- C3: `Cause` of a joined value is the joined value itself, which has
no single-cause unwrap and exposes only the multi-cause accessor; in
general `Cause` repeatedly follows the single-cause `Unwrap` path (the
unfolding equation) and its result exposes no further single cause. -/
theorem Cause_spec :
    (∀ (i : Nat) (g : Bool) (errs : List GoErr) (r : Nat),
      Cause (some (.joined i g errs r)) = some (.joined i g errs r)
      ∧ Unwrap (some (.joined i g errs r)) = none
      ∧ UnwrapMulti (.joined i g errs r) = some errs)
    ∧ (∀ e : GoErr,
        Cause (some e) =
          (match Unwrap (some e) with
           | none => some e
           | some c => Cause (some c)))
    ∧ (∀ e : GoErr, Unwrap (Cause (some e)) = none)
    ∧ Cause none = none := by
  refine ⟨?_, ?_, ?_, rfl⟩
  · intro i g errs r
    exact ⟨rfl, rfl, rfl⟩
  · intro e
    cases e with
    | root i g ty m f cz r => cases cz <;> simp [Cause, causeLoop, Unwrap]
    | wrapped i ty m f cz fr => cases cz <;> simp [Cause, causeLoop, Unwrap]
    | joined i g errs r => simp [Cause, causeLoop, Unwrap]
    | external i m => simp [Cause, causeLoop, Unwrap]
  · intro e
    exact unwrap_causeLoop e

theorem goEq_refl (e : GoErr) : goEq e e = true := by simp [goEq]

theorem msgIs_joined (i : Nat) (g : Bool) (errs : List GoErr) (r : Nat)
    (t : GoErr) : msgIs (.joined i g errs r) t = false := by
  cases t <;> rfl

theorem msgIs_external (i : Nat) (m : String) (t : GoErr) :
    msgIs (.external i m) t = false := by
  cases t <;> rfl

section UnfoldingEquations

theorem is_root_some (i : Nat) (g : Bool) (ty m : String)
    (f : List (String × String)) (c : GoErr) (r : Nat) (t : GoErr) :
    is (.root i g ty m f (some c) r) t =
      (goEq (.root i g ty m f (some c) r) t
        || msgIs (.root i g ty m f (some c) r) t || is c t) := rfl

theorem is_root_none (i : Nat) (g : Bool) (ty m : String)
    (f : List (String × String)) (r : Nat) (t : GoErr) :
    is (.root i g ty m f none r) t =
      (goEq (.root i g ty m f none r) t
        || msgIs (.root i g ty m f none r) t || false) := rfl

theorem is_wrapped_some (i : Nat) (ty m : String)
    (f : List (String × String)) (c : GoErr) (fr : Nat) (t : GoErr) :
    is (.wrapped i ty m f (some c) fr) t =
      (goEq (.wrapped i ty m f (some c) fr) t
        || msgIs (.wrapped i ty m f (some c) fr) t || is c t) := rfl

theorem is_wrapped_none (i : Nat) (ty m : String)
    (f : List (String × String)) (fr : Nat) (t : GoErr) :
    is (.wrapped i ty m f none fr) t =
      (goEq (.wrapped i ty m f none fr) t
        || msgIs (.wrapped i ty m f none fr) t || false) := rfl

theorem is_joined_unfold (i : Nat) (g : Bool) (errs : List GoErr) (r : Nat)
    (t : GoErr) :
    is (.joined i g errs r) t =
      (goEq (.joined i g errs r) t || isList errs t || isList errs t) := rfl

theorem is_external_unfold (i : Nat) (m : String) (t : GoErr) :
    is (.external i m) t = goEq (.external i m) t := rfl

theorem isList_nil (t : GoErr) : isList [] t = false := rfl

theorem isList_cons (c : GoErr) (rest : List GoErr) (t : GoErr) :
    isList (c :: rest) t = (is c t || isList rest t) := rfl

theorem reach_root_some (i : Nat) (g : Bool) (ty m : String)
    (f : List (String × String)) (c : GoErr) (r : Nat) :
    reach (.root i g ty m f (some c) r) =
      .root i g ty m f (some c) r :: reach c := rfl

theorem reach_root_none (i : Nat) (g : Bool) (ty m : String)
    (f : List (String × String)) (r : Nat) :
    reach (.root i g ty m f none r) = [.root i g ty m f none r] := rfl

theorem reach_wrapped_some (i : Nat) (ty m : String)
    (f : List (String × String)) (c : GoErr) (fr : Nat) :
    reach (.wrapped i ty m f (some c) fr) =
      .wrapped i ty m f (some c) fr :: reach c := rfl

theorem reach_wrapped_none (i : Nat) (ty m : String)
    (f : List (String × String)) (fr : Nat) :
    reach (.wrapped i ty m f none fr) = [.wrapped i ty m f none fr] := rfl

theorem reach_joined_unfold (i : Nat) (g : Bool) (errs : List GoErr) (r : Nat) :
    reach (.joined i g errs r) = .joined i g errs r :: reachList errs := rfl

theorem reach_external_unfold (i : Nat) (m : String) :
    reach (.external i m) = [.external i m] := rfl

theorem reachList_nil : reachList [] = [] := rfl

theorem reachList_cons (c : GoErr) (rest : List GoErr) :
    reachList (c :: rest) = reach c ++ reachList rest := rfl

end UnfoldingEquations

theorem is_self (e : GoErr) : is e e = true := by
  cases e with
  | root i g ty m f cz r =>
      cases cz <;> simp [is_root_some, is_root_none, goEq_refl]
  | wrapped i ty m f cz fr =>
      cases cz <;> simp [is_wrapped_some, is_wrapped_none, goEq_refl]
  | joined i g errs r => simp [is_joined_unfold, goEq_refl]
  | external i m => simp [is_external_unfold, goEq_refl]

mutual

theorem is_eq_reach : ∀ (e t : GoErr),
    is e t = (reach e).any (fun n => goEq n t || msgIs n t)
  | .root i g ty m f cz r, t => by
      cases cz with
      | none => simp [is_root_none, reach_root_none]
      | some c =>
          simp [is_root_some, reach_root_some, is_eq_reach c t,
            Bool.or_assoc]
  | .wrapped i ty m f cz fr, t => by
      cases cz with
      | none => simp [is_wrapped_none, reach_wrapped_none]
      | some c =>
          simp [is_wrapped_some, reach_wrapped_some, is_eq_reach c t,
            Bool.or_assoc]
  | .joined i g errs r, t => by
      simp [is_joined_unfold, reach_joined_unfold, msgIs_joined,
        isList_eq_reachList errs t, Bool.or_assoc, Bool.or_self]
  | .external i m, t => by
      simp [is_external_unfold, reach_external_unfold, msgIs_external]

theorem isList_eq_reachList : ∀ (l : List GoErr) (t : GoErr),
    isList l t = (reachList l).any (fun n => goEq n t || msgIs n t)
  | [], t => by simp [isList_nil, reachList_nil]
  | c :: rest, t => by
      simp [isList_cons, reachList_cons, is_eq_reach c t,
        isList_eq_reachList rest t]

end

theorem wrap_is (h : Heap) (c : GoErr) (msg : String) (trace : List Nat)
    (fp wId rId : Nat) (e' : GoErr)
    (he : (wrap h (some c) msg trace fp wId rId).2 = some e') :
    is e' c = true := by
  cases c with
  | root i g ty m f cz r =>
    cases g with
    | false =>
      simp [wrap] at he
      subst he
      simp [is_wrapped_some, is_self]
    | true =>
      simp [wrap, Heap.alloc] at he
      subst he
      cases cz <;>
        simp [is_wrapped_some, is_root_some, is_root_none, msgIs]
  | wrapped i ty m f cz fr =>
    cases hcl : causeLoop (GoErr.wrapped i ty m f cz fr) <;>
      simp [wrap, hcl] at he <;> subst he <;>
      simp [is_wrapped_some, is_self]
  | joined i g errs r =>
    simp [wrap, Heap.alloc] at he
    subst he
    simp [is_root_some, is_self]
  | external i m =>
    simp [wrap, Heap.alloc] at he
    subst he
    simp [is_root_some, is_self]

theorem wrap_not_global (h : Heap) (c : GoErr) (msg : String)
    (trace : List Nat) (fp wId rId : Nat) (e' : GoErr)
    (he : (wrap h (some c) msg trace fp wId rId).2 = some e') :
    isGlobalRoot e' = false := by
  cases c with
  | root i g ty m f cz r =>
    cases g <;> simp [wrap, Heap.alloc] at he <;> subst he <;> simp [isGlobalRoot]
  | wrapped i ty m f cz fr =>
    cases hcl : causeLoop (GoErr.wrapped i ty m f cz fr) <;>
      simp [wrap, hcl] at he <;> subst he <;> simp [isGlobalRoot]
  | joined i g errs r =>
    simp [wrap, Heap.alloc] at he
    subst he
    simp [isGlobalRoot]
  | external i m =>
    simp [wrap, Heap.alloc] at he
    subst he
    simp [isGlobalRoot]

theorem wrap_cause_shape (h : Heap) (c : GoErr) (msg : String)
    (trace : List Nat) (fp wId rId : Nat) (e' : GoErr)
    (hg : isGlobalRoot c = false)
    (he : (wrap h (some c) msg trace fp wId rId).2 = some e') :
    e' = .wrapped wId "" msg [] (some c) fp
    ∨ ∃ ref, e' = .root rId false "" msg [] (some c) ref := by
  cases c with
  | root i g ty m f cz r =>
    cases g with
    | false =>
      simp [wrap] at he
      exact Or.inl he.symm
    | true => simp [isGlobalRoot] at hg
  | wrapped i ty m f cz fr =>
    cases hcl : causeLoop (GoErr.wrapped i ty m f cz fr) <;>
      simp [wrap, hcl] at he <;> exact Or.inl he.symm
  | joined i g errs r =>
    simp [wrap, Heap.alloc] at he
    exact Or.inr ⟨h.length, he.symm⟩
  | external i m =>
    simp [wrap, Heap.alloc] at he
    exact Or.inr ⟨h.length, he.symm⟩

/-- C4: `Is` holds of two nils, fails when exactly one side is nil, and
otherwise succeeds exactly when some node reachable from the error —
through single-cause links and through every sub-error of a joined node —
coincides with the target by interface identity or matches it through the
node's custom equality method; in particular the double-wrap of any error
still matches it, and a join of two errors matches each of them. -/
theorem Is_spec :
    (Is none none = true)
    ∧ (∀ e : GoErr, Is (some e) none = false ∧ Is none (some e) = false)
    ∧ (∀ e t : GoErr,
        Is (some e) (some t) = (reach e).any (fun n => goEq n t || msgIs n t))
    ∧ (∀ (h h2 : Heap) (e1 : GoErr) (m2 m3 : String) (tr1 tr2 : List Nat)
        (fp1 fp2 w1 r1 w2 r2 : Nat) (e2 e3 : GoErr),
        (wrap h (some e1) m2 tr1 fp1 w1 r1).2 = some e2 →
        (wrap h2 (some e2) m3 tr2 fp2 w2 r2).2 = some e3 →
        Is (some e3) (some e1) = true)
    ∧ (∀ (h : Heap) (e1 e2 : GoErr) (tr : List Nat) (g : Bool) (jId : Nat),
        Is (Join h [some e1, some e2] tr g jId).2 (some e1) = true
        ∧ Is (Join h [some e1, some e2] tr g jId).2 (some e2) = true) := by
  refine ⟨rfl, fun e => ⟨rfl, rfl⟩, ?_, ?_, ?_⟩
  · intro e t
    exact is_eq_reach e t
  · intro h h2 e1 m2 m3 tr1 tr2 fp1 fp2 w1 r1 w2 r2 e2 e3 he1 he2
    have h12 : is e2 e1 = true := wrap_is h e1 m2 tr1 fp1 w1 r1 e2 he1
    have hng : isGlobalRoot e2 = false :=
      wrap_not_global h e1 m2 tr1 fp1 w1 r1 e2 he1
    rcases wrap_cause_shape h2 e2 m3 tr2 fp2 w2 r2 e3 hng he2 with
      rfl | ⟨ref, rfl⟩
    · simp [Is, is_wrapped_some, h12]
    · simp [Is, is_root_some, h12]
  · intro h e1 e2 tr g jId
    have hj : (Join h [some e1, some e2] tr g jId).2
        = some (.joined jId g [e1, e2] h.length) := rfl
    constructor <;> rw [hj] <;>
      simp [Is, is_joined_unfold, isList_cons, isList_nil, is_self]

/-- Witness for C4 at a concrete foreign error wrapped twice and at
concrete nil sides. -/
theorem Is_spec_witness :
    ((wrap [] (some (GoErr.external 0 "x")) "m2" [1] 9 1 2).2
        = some (GoErr.root 2 false "" "m2" [] (some (.external 0 "x")) 0))
    ∧ ((wrap [[1]]
          (some (GoErr.root 2 false "" "m2" [] (some (.external 0 "x")) 0))
          "m3" [2] 8 3 4).2
        = some (GoErr.wrapped 3 "" "m3" []
            (some (GoErr.root 2 false "" "m2" [] (some (.external 0 "x")) 0)) 8))
    ∧ Is (some (GoErr.wrapped 3 "" "m3" []
          (some (GoErr.root 2 false "" "m2" [] (some (.external 0 "x")) 0)) 8))
        (some (GoErr.external 0 "x")) = true :=
  ⟨rfl, rfl,
   Is_spec.2.2.2.1 [] [[1]] (GoErr.external 0 "x") "m2" "m3" [1] [2]
     9 8 1 2 3 4
     (GoErr.root 2 false "" "m2" [] (some (.external 0 "x")) 0)
     (GoErr.wrapped 3 "" "m3" []
       (some (GoErr.root 2 false "" "m2" [] (some (.external 0 "x")) 0)) 8)
     rfl rfl⟩

/-- C5 (code bug): with an empty options list `Wrap` of a nil cause does
return nil, but with any option in the list the option closure is invoked
on the nil interface returned by the internal `wrap`, which dereferences
a nil interface and panics — contradicting the claimed no-op, no-crash
behaviour. -/
theorem Wrap_nil_cause_spec :
    (Wrap [] none "m" [GoOption.withType "T"] [1] 9 1 2 = none)
    ∧ (∀ (h : Heap) (msg : String) (trace : List Nat) (fp wId rId : Nat),
        Wrap h none msg [] trace fp wId rId = some (h, none))
    ∧ (∀ (h : Heap) (msg : String) (o : GoOption) (ofs : List GoOption)
        (trace : List Nat) (fp wId rId : Nat),
        Wrap h none msg (o :: ofs) trace fp wId rId = none) := by
  exact ⟨rfl, fun h msg trace fp wId rId => rfl,
    fun h msg o ofs trace fp wId rId => rfl⟩

/-- C6: wrapping a Root flagged as global builds a brand-new Root that
copies the old Root's message, type, fields and cause but owns a fresh
cell holding the freshly captured trace, and the Wrapped node is built
against that new Root; the original Root value and its trace cell are
left unchanged. -/
theorem wrap_global_root_spec :
    ∀ (h : Heap) (i : Nat) (ty m : String) (fs : List (String × String))
      (cz : Option GoErr) (ref : Nat) (msg : String) (trace : List Nat)
      (fp wId rId : Nat), ref < h.length →
    wrap h (some (.root i true ty m fs cz ref)) msg trace fp wId rId =
      (h ++ [trace],
       some (.wrapped wId "" msg []
         (some (.root rId true ty m fs cz h.length)) fp))
    ∧ Heap.get (h ++ [trace]) ref = Heap.get h ref
    ∧ Heap.get (h ++ [trace]) h.length = trace := by
  intro h i ty m fs cz ref msg trace fp wId rId href
  refine ⟨rfl, ?_, ?_⟩
  · simp only [Heap.get, List.getD_eq_getElem?_getD]
    rw [List.getElem?_append_left href]
  · simp [Heap.get,
      List.getD_append_right h [trace] [] h.length (Nat.le_refl h.length)]

/-- Witness for C6 on a one-cell heap. -/
theorem wrap_global_root_spec_witness :
    (0 : Nat) < List.length [[5]]
    ∧ (wrap [[5]] (some (.root 7 true "T" "m" [("k", "v")] none 0))
          "w" [3] 9 1 2 =
        ([[5], [3]],
         some (.wrapped 1 "" "w" []
           (some (.root 2 true "T" "m" [("k", "v")] none 1)) 9))
       ∧ Heap.get [[5], [3]] 0 = Heap.get [[5]] 0
       ∧ Heap.get [[5], [3]] 1 = [3]) :=
  ⟨by decide,
   wrap_global_root_spec [[5]] 7 "T" "m" [("k", "v")] none 0 "w" [3] 9 1 2
     (by decide)⟩

/-- C7: wrapping a foreign error builds a brand-new Root whose cause is
the foreign error, whose trace cell holds the freshly captured trace and
whose message is the wrap message; the foreign error is reachable from
the result by exactly one unwrap step and no Wrapped node is created. -/
theorem wrap_external_spec :
    ∀ (h : Heap) (eid : Nat) (emsg msg : String) (trace : List Nat)
      (fp wId rId : Nat),
    wrap h (some (.external eid emsg)) msg trace fp wId rId =
      (h ++ [trace],
       some (.root rId false "" msg [] (some (.external eid emsg)) h.length))
    ∧ Unwrap (some (.root rId false "" msg []
        (some (.external eid emsg)) h.length)) = some (.external eid emsg)
    ∧ Heap.get (h ++ [trace]) h.length = trace := by
  intro h eid emsg msg trace fp wId rId
  refine ⟨rfl, rfl, ?_⟩
  simp [Heap.get,
    List.getD_append_right h [trace] [] h.length (Nat.le_refl h.length)]

section UnpackLemmas

theorem unpackLoop_none (h : Heap) (acc : UnpackedError) :
    unpackLoop h none acc = acc := by rw [unpackLoop.eq_def]

theorem unpackLoop_root (h : Heap) (i : Nat) (g : Bool) (ty m : String)
    (f : List (String × String)) (cz : Option GoErr) (r : Nat)
    (acc : UnpackedError) :
    unpackLoop h (some (.root i g ty m f cz r)) acc =
      unpackLoop h cz
        { acc with errRoot := { message := m, errType := ty, fields := f
                              , stack := Heap.get h r } } := by
  rw [unpackLoop.eq_def]

theorem unpackLoop_wrapped (h : Heap) (i : Nat) (ty m : String)
    (f : List (String × String)) (cz : Option GoErr) (fr : Nat)
    (acc : UnpackedError) :
    unpackLoop h (some (.wrapped i ty m f cz fr)) acc =
      unpackLoop h cz
        { acc with errChain := acc.errChain ++
            [{ message := m, errType := ty, fields := f, stack := [fr] }] } := by
  rw [unpackLoop.eq_def]

theorem unpackLoop_joined (h : Heap) (i : Nat) (g : Bool)
    (errs : List GoErr) (r : Nat) (acc : UnpackedError) :
    unpackLoop h (some (.joined i g errs r)) acc =
      { acc with errExternal := some (.joined i g errs r) } := by
  rw [unpackLoop.eq_def]

theorem unpackLoop_external (h : Heap) (i : Nat) (m : String)
    (acc : UnpackedError) :
    unpackLoop h (some (.external i m)) acc =
      { acc with errExternal := some (.external i m) } := by
  rw [unpackLoop.eq_def]

theorem unpackLoop_buildChain (h : Heap) (base : GoErr)
    (specs : List WrapSpec) :
    ∀ acc, unpackLoop h (some (buildChain base specs)) acc =
      unpackLoop h (some base)
        { acc with errChain := acc.errChain ++ specs.map wrapPart } := by
  induction specs with
  | nil => intro acc; simp [buildChain]
  | cons w rest ih =>
      intro acc
      rw [buildChain, unpackLoop_wrapped, ih]
      simp [wrapPart]

end UnpackLemmas

/-- C8 counterexample: on the concrete chain "C" wrapping "B" wrapping
root "A", `Unpack` stores the wrap parts as C then B — the outermost wrap
first — whereas innermost-wrap-nearest-root-first storage would be B then
C, so the claimed storage order is false. -/
theorem Unpack_order_counterexample :
    (Unpack [[10, 11]]
        (some (.wrapped 2 "" "C" []
          (some (.wrapped 1 "" "B" []
            (some (.root 0 false "" "A" [] none 0)) 21)) 22))).errChain.map
      ErrPart.message = ["C", "B"]
    ∧ (["C", "B"] : List String) ≠ ["B", "C"] := by
  constructor
  · have h1 : Unpack [[10, 11]]
        (some (.wrapped 2 "" "C" []
          (some (.wrapped 1 "" "B" []
            (some (.root 0 false "" "A" [] none 0)) 21)) 22)) =
        unpackLoop [[10, 11]]
          (some (.wrapped 2 "" "C" []
            (some (.wrapped 1 "" "B" []
              (some (.root 0 false "" "A" [] none 0)) 21)) 22))
          emptyUnpacked := rfl
    rw [h1, unpackLoop_wrapped, unpackLoop_wrapped, unpackLoop_root,
      unpackLoop_none]
    rfl
  · decide

theorem formatPartJSON_innerFirst (o : FormatterOptions) (b : Bool) :
    formatPartJSON { o with isInnerFirst := b } = formatPartJSON o := by
  funext p
  rfl

/-- C8 (amended): on every non-joined library-shaped chain, `Unpack`
stores the wrap parts of the chain record in outermost-wrap-first
(innermost-wrap-nearest-root-last) order; `Unpack` takes no formatting
options and the presentation order is produced later by the formatter,
whose inner-first mode reverses only its own rendered list while the
stored order is unchanged; a joined error short-circuits, exposing the
child error list directly. -/
theorem Unpack_storage_order_spec :
    ∀ (h : Heap) (specs : List WrapSpec) (i : Nat) (g : Bool) (ty m : String)
      (f : List (String × String)) (ext : Option (Nat × String)) (ref : Nat),
    Unpack h (some (buildChain
        (.root i g ty m f (ext.map fun p => GoErr.external p.1 p.2) ref)
        specs))
      = { errExternal := ext.map fun p => GoErr.external p.1 p.2
        , errRoot := { message := m, errType := ty, fields := f
                     , stack := Heap.get h ref }
        , errChain := specs.map wrapPart
        , errJoined := [] }
    ∧ (∀ (ji : Nat) (jg : Bool) (jerrs : List GoErr) (jr : Nat),
        Unpack h (some (.joined ji jg jerrs jr)) =
          { emptyUnpacked with errJoined := jerrs })
    ∧ (∀ (o : FormatterOptions) (u : UnpackedError),
        formatChainJSONChain { o with isInnerFirst := true } u =
          (formatChainJSONChain { o with isInnerFirst := false } u).reverse) := by
  intro h specs i g ty m f ext ref
  refine ⟨?_, fun ji jg jerrs jr => rfl,
    fun o u => by simp [formatChainJSONChain, formatPartJSON_innerFirst]⟩
  have hb : Unpack h (some (buildChain
      (.root i g ty m f (ext.map fun p => GoErr.external p.1 p.2) ref) specs))
      = unpackLoop h (some (buildChain
          (.root i g ty m f (ext.map fun p => GoErr.external p.1 p.2) ref)
          specs)) emptyUnpacked := by
    cases specs with
    | nil => rfl
    | cons w rest => rfl
  rw [hb, unpackLoop_buildChain, unpackLoop_root]
  cases ext with
  | none => simp [Option.map, unpackLoop_none, emptyUnpacked]
  | some p => simp [Option.map, unpackLoop_external, emptyUnpacked]

/-- C10: the `Error` method on a nil root or wrapped pointer returns the
string <nil> rather than panicking; on a non-nil node it returns the
node's message, and when the node has a non-nil cause the message is
followed by a colon-space separator and the cause's own text,
concatenating the whole chain recursively. -/
theorem errorMethod_spec :
    errorMethod none = "<nil>"
    ∧ (∀ e, errorMethod (some e) = errorMessage e)
    ∧ (∀ (i : Nat) (g : Bool) (ty m : String) (f : List (String × String))
        (r : Nat), errorMessage (.root i g ty m f none r) = m)
    ∧ (∀ (i : Nat) (g : Bool) (ty m : String) (f : List (String × String))
        (c : GoErr) (r : Nat),
        errorMessage (.root i g ty m f (some c) r)
          = m ++ (": " ++ errorMessage c))
    ∧ (∀ (i : Nat) (ty m : String) (f : List (String × String)) (fr : Nat),
        errorMessage (.wrapped i ty m f none fr) = m)
    ∧ (∀ (i : Nat) (ty m : String) (f : List (String × String)) (c : GoErr)
        (fr : Nat),
        errorMessage (.wrapped i ty m f (some c) fr)
          = m ++ (": " ++ errorMessage c)) := by
  refine ⟨rfl, fun e => rfl, ?_, fun i g ty m f c r => rfl, ?_,
    fun i ty m f c fr => rfl⟩
  · intro i g ty m f r
    show m ++ "" = m
    simp
  · intro i ty m f fr
    show m ++ "" = m
    simp

end HqGoErrors
